import Mathlib

/-!
Verification of the sp500-analysis repository's rate-limited batch
fetch/analyze pipeline.  Python sources are shallowly embedded: floats become
rationals, dictionaries with optional keys become structures of `Option`
fields, exceptions become `Except`, and the retry loop becomes structural
recursion on the remaining attempt count.
-/

/-- Round-half-to-even on rationals, mirroring Python's `round` tie-breaking. -/
def roundHalfEven (q : ℚ) : ℤ :=
  let f : ℤ := ⌊q⌋
  let r : ℚ := q - f
  if r < 1/2 then f
  else if 1/2 < r then f + 1
  else if 2 ∣ f then f else f + 1

/-- Python's `round(x, n)` on the rational model. -/
def pyRound (n : ℕ) (q : ℚ) : ℚ :=
  (roundHalfEven (q * 10 ^ n) : ℚ) / 10 ^ n

/- ----------------------------------------------------------------
   rate_limit_config.py
---------------------------------------------------------------- -/

/-- One named bundle of concurrency/delay parameters (`PRESETS` values in
`rate_limit_config.py`). Delay bounds are seconds, modelled as rationals. -/
structure PresetConfig where
  max_workers : ℕ
  batch_size : ℕ
  delay_range : ℚ × ℚ
  inter_batch_delay : ℚ × ℚ
  deriving Repr, DecidableEq

/-- The `PRESETS['aggressive']` entry of `rate_limit_config.py`. -/
def aggressivePreset : PresetConfig :=
  { max_workers := 5, batch_size := 100
    delay_range := (1/5, 1), inter_batch_delay := (1, 3) }

/-- The `PRESETS['balanced']` entry of `rate_limit_config.py`. -/
def balancedPreset : PresetConfig :=
  { max_workers := 3, batch_size := 50
    delay_range := (1/2, 2), inter_batch_delay := (2, 5) }

/-- The `PRESETS['conservative']` entry of `rate_limit_config.py`. -/
def conservativePreset : PresetConfig :=
  { max_workers := 1, batch_size := 20
    delay_range := (1, 3), inter_batch_delay := (5, 10) }

/-- The `PRESETS['ultra_conservative']` entry of `rate_limit_config.py`. -/
def ultraConservativePreset : PresetConfig :=
  { max_workers := 1, batch_size := 10
    delay_range := (2, 5), inter_batch_delay := (10, 20) }

/-- The `PRESETS` dictionary of `rate_limit_config.py`. -/
def PRESETS : List (String × PresetConfig) :=
  [( "aggressive", aggressivePreset),
   ( "balanced", balancedPreset),
   ( "conservative", conservativePreset),
   ( "ultra_conservative", ultraConservativePreset)]

/-- Model of `get_config` in `rate_limit_config.py`: look the preset name up in
`PRESETS`, silently falling back to the `balanced` entry when absent. -/
def get_config (preset : String) : PresetConfig :=
  match PRESETS.lookup preset with
  | some c => c
  | none => balancedPreset

/-- The `RATE_LIMIT_CONFIG['max_retries']` value of `rate_limit_config.py`. -/
def maxRetriesConst : ℕ := 3

/-- The `RATE_LIMIT_CONFIG['exponential_backoff_base']` value of `rate_limit_config.py`. -/
def backoffBaseConst : ℚ := 1

/- ----------------------------------------------------------------
   Throttle / retry (fortune5000-analysis.py, rate_limited_request)
---------------------------------------------------------------- -/

/-- Error text, the model of Python's `str(e)`. -/
abbrev PyErr : Type := List Char

/-- Whether `pat` occurs at the head of `s` (Python `str.startswith`). -/
def startsWith : List Char → List Char → Bool
  | [], _ => true
  | _ :: _, [] => false
  | p :: ps, c :: cs => (p == c) && startsWith ps cs

/-- Whether `pat` occurs anywhere inside `s` (Python's `pat in s`). -/
def hasSub (pat : List Char) : List Char → Bool
  | [] => pat.isEmpty
  | c :: rest => startsWith pat (c :: rest) || hasSub pat rest

/-- The HTTP 429 marker searched for in error text. -/
def sub429 : List Char := "429".toList

/-- The textual rate-limit marker searched for in lower-cased error text. -/
def subRateLimit : List Char := "rate limit".toList

/-- Error classification of `rate_limited_request`: the error text contains
the 429 marker, or its lower-cased form contains the rate-limit marker. -/
def isRateLimitError (e : PyErr) : Bool :=
  hasSub sub429 e || hasSub subRateLimit (e.map Char.toLower)

/-- The retry loop of `rate_limited_request`: `f i` is the outcome of attempt
`i` of the wrapped call.  A success returns it; a rate-limit error backs off
and retries; any other error is re-raised at once.  When the attempt budget is
exhausted the wrapper returns plain `None` (`Except.ok none`).  The second
component counts the attempts actually made. -/
def retryLoop (f : ℕ → Except PyErr α) (attempt : ℕ) :
    (fuel : ℕ) → Except PyErr (Option α) × ℕ
  | 0 => (Except.ok none, 0)
  | fuel + 1 =>
    match f attempt with
    | Except.ok a => (Except.ok (some a), 1)
    | Except.error e =>
      if isRateLimitError e then
        let r := retryLoop f (attempt + 1) fuel
        (r.1, r.2 + 1)
      else (Except.error e, 1)

/-- Model of `rate_limited_request` applied to a wrapped call whose attempt outcomes
are given by `f`: run the retry loop for `RATE_LIMIT_CONFIG['max_retries']`
attempts starting from attempt 0. -/
def rate_limited_request (f : ℕ → Except PyErr α) : Except PyErr (Option α) × ℕ :=
  retryLoop f 0 maxRetriesConst

/- ----------------------------------------------------------------
   Technical indicators (calculate_technical_indicators)
---------------------------------------------------------------- -/

/-- One daily bar of the price history window; only the fields the pipeline
reads (`Close`, `Volume`) are modelled. -/
structure Bar where
  close : ℚ
  volume : ℚ
  deriving DecidableEq

/-- Modelled from the spec: the running 12/26/9-period exponential moving
average used by the MACD indicator (the `ta` library computing it is not part
of the repository source).  Standard EMA with factor `2/(n+1)`, seeded with
the first element. -/
def emaRun (n : ℕ) : List ℚ → List ℚ
  | [] => []
  | x :: xs =>
    List.scanl (fun prev y => (2 / (n + 1)) * y + (1 - 2 / (n + 1)) * prev) x xs

/-- Final value of a running EMA (0 for an empty series). -/
def emaLast (n : ℕ) (l : List ℚ) : ℚ := (emaRun n l).getLast?.getD 0

/-- Consecutive differences of a series. -/
def diffs : List ℚ → List ℚ
  | [] => []
  | [_] => []
  | a :: b :: rest => (b - a) :: diffs (b :: rest)

/-- Modelled from the spec: Wilder smoothing with period 14 over a series,
seeded with its first element. -/
def wilderAvg (l : List ℚ) : ℚ :=
  match l with
  | [] => 0
  | x :: xs => xs.foldl (fun prev y => prev + (y - prev) / 14) x

/-- Modelled from the spec: the 14-period relative-strength index over
closing prices with standard Wilder smoothing, final period's value; when the
average loss is zero the index saturates at 100. -/
def rsiWilder (closes : List ℚ) : ℚ :=
  let ds := diffs closes
  let ag := wilderAvg (ds.map fun d => max d 0)
  let al := wilderAvg (ds.map fun d => max (-d) 0)
  if al = 0 then 100 else 100 - 100 / (1 + ag / al)

/-- Modelled from the spec: cumulative on-balance volume, accumulator after
the last bar.  Volume is added on an up-close, subtracted on a down-close. -/
def obvFold (acc prevClose : ℚ) : List Bar → ℚ
  | [] => acc
  | b :: rest =>
    obvFold
      (if prevClose < b.close then acc + b.volume
       else if b.close < prevClose then acc - b.volume
       else acc)
      b.close rest

/-- Final on-balance-volume value over a window, seeded with the first bar's
volume. -/
def obvLast (hist : List Bar) : ℚ :=
  match hist with
  | [] => 0
  | b :: rest => obvFold b.volume b.close rest

/-- Python's `int(x)`: truncation toward zero. -/
def pyInt (q : ℚ) : ℤ := if q < 0 then ⌈q⌉ else ⌊q⌋

/-- The technical-indicator group of an analysis record, every field
nullable. -/
structure TechIndicators where
  rsi : Option ℚ
  macd : Option ℚ
  macd_signal : Option ℚ
  macd_histogram : Option ℚ
  obv : Option ℤ
  deriving DecidableEq

/-- The all-null indicator group. -/
def nullIndicators : TechIndicators :=
  { rsi := none, macd := none, macd_signal := none
    macd_histogram := none, obv := none }

/-- Model of `calculate_technical_indicators`: fewer than 14 bars yields the all-null
group; otherwise RSI (rounded to 2 decimals), MACD/signal/histogram (rounded
to 4) and OBV (truncated to an integer) are computed from the window. -/
def calculate_technical_indicators (hist : List Bar) : TechIndicators :=
  if hist.length < 14 then nullIndicators
  else
    let closes := hist.map Bar.close
    let macdSeries := List.zipWith (· - ·) (emaRun 12 closes) (emaRun 26 closes)
    let m := macdSeries.getLast?.getD 0
    let s := emaLast 9 macdSeries
    { rsi := some (pyRound 2 (rsiWilder closes))
      macd := some (pyRound 4 m)
      macd_signal := some (pyRound 4 s)
      macd_histogram := some (pyRound 4 (m - s))
      obv := some (pyInt (obvLast hist)) }

/- ----------------------------------------------------------------
   Fundamental ratios (calculate_fundamental_ratios)
---------------------------------------------------------------- -/

/-- The provider's sparse per-symbol descriptive mapping; each field is the
value of the correspondingly named `info` key, absent keys being `none`.
(`pegRatioF` stands for the `pegRatio` key.) -/
structure StockInfo where
  trailingPE : Option ℚ
  forwardPE : Option ℚ
  pegRatioF : Option ℚ
  totalDebt : Option ℚ
  totalStockholderEquity : Option ℚ
  freeCashflow : Option ℚ
  dividendYield : Option ℚ
  bookValue : Option ℚ
  priceToBook : Option ℚ
  returnOnEquity : Option ℚ
  fiftyTwoWeekHigh : Option ℚ
  deriving DecidableEq

/-- The nine derived ratio fields (`pe_ratio_v` and `peg_ratio_v` stand for
the `pe_ratio` and `peg_ratio` keys of the Python result dictionary). -/
structure FundamentalRatios where
  pe_ratio_v : Option ℚ
  forward_pe : Option ℚ
  peg_ratio_v : Option ℚ
  debt_to_equity : Option ℚ
  free_cash_flow : Option ℚ
  dividend_yield : Option ℚ
  book_value : Option ℚ
  price_to_book : Option ℚ
  return_on_equity : Option ℚ
  deriving DecidableEq

/-- Python's `round(x, 2) if x else None` idiom: `None` and a zero value are
both falsy and yield `None`; any other value is rounded to 2 decimals. -/
def roundIfTruthy (o : Option ℚ) : Option ℚ :=
  match o with
  | some v => if v ≠ 0 then some (pyRound 2 v) else none
  | none => none

/-- Model of `calculate_fundamental_ratios`: debt and equity default to 0 when absent;
debt-to-equity is computed only for a truthy (nonzero) equity; yield and ROE
are scaled by 100 when truthy; every field then passes through the
`round(x, 2) if x else None` idiom except `free_cash_flow`, which is returned
as fetched. -/
def calculate_fundamental_ratios (info : StockInfo) : FundamentalRatios :=
  let total_debt : ℚ := info.totalDebt.getD 0
  let total_equity : ℚ := info.totalStockholderEquity.getD 0
  let d2e : Option ℚ :=
    if total_equity ≠ 0 then some (total_debt / total_equity) else none
  let dy : Option ℚ :=
    match info.dividendYield with
    | some v => if v ≠ 0 then some (v * 100) else some v
    | none => none
  let roe : Option ℚ :=
    match info.returnOnEquity with
    | some v => if v ≠ 0 then some (v * 100) else some v
    | none => none
  { pe_ratio_v := roundIfTruthy info.trailingPE
    forward_pe := roundIfTruthy info.forwardPE
    peg_ratio_v := roundIfTruthy info.pegRatioF
    debt_to_equity := roundIfTruthy d2e
    free_cash_flow := info.freeCashflow
    dividend_yield := roundIfTruthy dy
    book_value := roundIfTruthy info.bookValue
    price_to_book := roundIfTruthy info.priceToBook
    return_on_equity := roundIfTruthy roe }

/- ----------------------------------------------------------------
   Symbol fetcher (analyze_single_stock)
---------------------------------------------------------------- -/

/-- What a successful raw provider fetch returns: the 30-day history and the
descriptive info of one symbol. -/
structure StockData where
  hist : List Bar
  info : StockInfo
  deriving DecidableEq

/-- Body of the wrapped `fetch_stock_data` call around one raw provider
outcome: an exception propagates; an empty or single-bar window returns
`None` (insufficient data); otherwise the data is returned. -/
def fetchInnerOutcome (r : Except PyErr StockData) : Except PyErr (Option StockData) :=
  match r with
  | Except.error e => Except.error e
  | Except.ok sd =>
    if sd.hist.length < 2 then Except.ok none else Except.ok (some sd)

/-- The pipeline's unit of output; the fields the verified properties read
(the remaining fields of the Python result dictionary carry provider strings
and volumes that no claim mentions). -/
structure AnalysisRecord where
  symbol : String
  current_price : ℚ
  previous_close : ℚ
  percent_change : ℚ
  distance_from_high : ℚ
  tech : TechIndicators
  fundamentals : FundamentalRatios
  deriving DecidableEq

/-- Model of `analyze_single_stock`: fetch under the retry wrapper (per-attempt raw
outcomes given by `oracle`); a propagated exception is caught, the symbol is
appended to `failed_requests` and no record is returned; a `None` fetch
result (exhausted retries or insufficient data) returns no record and leaves
the failure list unchanged; otherwise the last two closes decide the
threshold test and a qualifying symbol is assembled into a record.  The model
assumes a nonzero previous close (Python would raise on division by zero). -/
def analyzeSingleStock (θ : ℚ) (sym : String)
    (oracle : ℕ → Except PyErr StockData) (failed : List String) :
    List String × Option AnalysisRecord :=
  match (rate_limited_request (fun i => fetchInnerOutcome (oracle i))).1 with
  | Except.error _ => (failed ++ [sym], none)
  | Except.ok none => (failed, none)
  | Except.ok (some none) => (failed, none)
  | Except.ok (some (some sd)) =>
    match (sd.hist.map Bar.close).reverse with
    | cur :: prev :: _ =>
      let pct := (cur - prev) / prev * 100
      if pct ≤ θ then
        let high := sd.info.fiftyTwoWeekHigh.getD 0
        let dist := if high ≠ 0 then (cur - high) / high * 100 else 0
        (failed,
         some { symbol := sym, current_price := cur, previous_close := prev
                percent_change := pct, distance_from_high := dist
                tech := calculate_technical_indicators sd.hist
                fundamentals := calculate_fundamental_ratios sd.info })
      else (failed, none)
    | _ => (failed, none)

/-- The record `analyze_single_stock` would produce for a symbol in
isolation. -/
def symbolRecord (θ : ℚ) (oracle : ℕ → Except PyErr StockData) (sym : String) :
    Option AnalysisRecord :=
  (analyzeSingleStock θ sym oracle []).2

/-- Whether `analyze_single_stock` appends the symbol to the failure list. -/
def symbolFailed (θ : ℚ) (oracle : ℕ → Except PyErr StockData) (sym : String) : Bool :=
  decide ((analyzeSingleStock θ sym oracle []).1 ≠ [])

/- ----------------------------------------------------------------
   Batcher (process_batch)
---------------------------------------------------------------- -/

/-- Model of `process_batch`: run `analyze_single_stock` over one batch, threading the
shared failure list and collecting every produced record.  (The worker pool's
completion order only permutes the collected list; the sequential order is
used as its representative.) -/
def process_batch (θ : ℚ) (oracles : String → ℕ → Except PyErr StockData)
    (failed : List String) : List String → List String × List AnalysisRecord
  | [] => (failed, [])
  | sym :: rest =>
    let step := analyzeSingleStock θ sym (oracles sym) failed
    let further := process_batch θ oracles step.1 rest
    match step.2 with
    | some r => (further.1, r :: further.2)
    | none => (further.1, further.2)

/- ----------------------------------------------------------------
   Orchestrator (analyze_us_stocks) and result display
---------------------------------------------------------------- -/

/-- The `total_batches` count of `analyze_us_stocks`: ceiling division of the universe
size by the batch size. -/
def totalBatches (numTickers batchSize : ℕ) : ℕ :=
  (numTickers + batchSize - 1) / batchSize

/-- The (low, high) bounds handed to the uniform sampler for the pause after
each batch of `analyze_us_stocks`: the source hardcodes `uniform(2.0, 5.0)`
and performs no sleep after the last batch (`if current_batch <
total_batches`, where `current_batch = i + 1`). -/
def analyzeSleepBounds (numBatches : ℕ) : List (ℚ × ℚ) :=
  (List.range numBatches).filterMap fun i =>
    if i + 1 < numBatches then some (2, 5) else none

/-- Model of `display_results`: the records are sorted ascending by percent change
before display; the persisted CSV uses the same (in-place sorted) list. -/
def display_results_sort (l : List AnalysisRecord) : List AnalysisRecord :=
  List.insertionSort (fun a b => a.percent_change ≤ b.percent_change) l

/- ----------------------------------------------------------------
   Throttle timing model (rate_limited_request, lines 270-278)
---------------------------------------------------------------- -/

/-- The shared state the throttle manipulates: the wall clock and the
process-wide `self.last_request_time`. -/
structure ThrottleState where
  clock : ℚ
  last : ℚ
  deriving DecidableEq

/-- One worker's view while executing the throttle block: the delay it drew
from the preset's range and the values it has read so far; `startT` is the
moment it wrote the shared timestamp and proceeded with its call. -/
structure ThreadCtx where
  drawn : ℚ
  localNow : Option ℚ
  localLast : Option ℚ
  startT : Option ℚ
  deriving DecidableEq

/-- The read half of the throttle block (`current_time = time.time()`;
`time_since_last = current_time - self.last_request_time`): the worker
samples the clock and the shared timestamp into its locals. -/
def readShared (st : ThrottleState) (c : ThreadCtx) : ThreadCtx :=
  { c with localNow := some st.clock, localLast := some st.last }

/-- The write half of the throttle block: from the values read earlier the
worker sleeps off any deficit below its drawn delay (advancing the clock),
then stores the new time into the shared timestamp and proceeds. -/
def proceedWrite (st : ThrottleState) (c : ThreadCtx) : ThrottleState × ThreadCtx :=
  match c.localNow, c.localLast with
  | some n, some l =>
    let deficit := if n - l < c.drawn then c.drawn - (n - l) else 0
    let t := st.clock + deficit
    ({ clock := t, last := t }, { c with startT := some t })
  | _, _ => (st, c)

/-- One uninterrupted (sequential) acquisition: read then proceed with no
interleaved writer; returns the new shared state and the call-start time. -/
def sequentialAcquire (st : ThrottleState) (d : ℚ) : ThrottleState × ℚ :=
  let c := readShared st { drawn := d, localNow := none, localLast := none, startT := none }
  let p := proceedWrite st c
  (p.1, p.2.startT.getD 0)

/-- Both workers read the stale shared timestamp before either writes
(schedule: A reads, B reads, A proceeds, B proceeds); returns the two
call-start times and worker B's read of the shared timestamp. -/
def staleRaceTrace : (ℚ × ℚ) × Option ℚ :=
  let st0 : ThrottleState := { clock := 100, last := 0 }
  let cA := readShared st0 { drawn := 1, localNow := none, localLast := none, startT := none }
  let cB := readShared st0 { drawn := 1, localNow := none, localLast := none, startT := none }
  let p1 := proceedWrite st0 cA
  let p2 := proceedWrite p1.1 cB
  ((p1.2.startT.getD 0, p2.2.startT.getD 0), cB.localLast)

/- ----------------------------------------------------------------
   Ticker filtering (get_fortune5000_tickers)
---------------------------------------------------------------- -/

/-- The characters Python's `str.strip()` removes by default. -/
def isPySpace (c : Char) : Bool :=
  c == ' ' || c == '\t' || c == '\n' || c == '\r' || c == '\x0b' || c == '\x0c'

/-- Python's `str.strip()`: drop whitespace from both ends. -/
def pyStrip (s : List Char) : List Char :=
  ((s.dropWhile isPySpace).reverse.dropWhile isPySpace).reverse

/-- The `excluded_suffixes` list of `get_fortune5000_tickers`, in source
order (duplicates included). -/
def excludedSuffixes : List (List Char) :=
  [['.', 'W'], ['.', 'U'], ['.', 'R'], ['$'], ['#'], ['.', 'A'], ['.', 'B'],
   ['.', 'C'], ['.', 'D'], ['.', 'E'], ['.', 'F'], ['.', 'G'], ['.', 'H'],
   ['.', 'I'], ['.', 'J'], ['.', 'K'], ['.', 'L'], ['.', 'M'], ['.', 'N'],
   ['.', 'O'], ['.', 'P'], ['.', 'Q'], ['.', 'R'], ['.', 'S'], ['.', 'T'],
   ['.', 'U'], ['.', 'V'], ['.', 'W'], ['.', 'X'], ['.', 'Y'], ['.', 'Z']]

/-- Python's `ticker.replace('.', '-')`. -/
def replaceDots (s : List Char) : List Char :=
  s.map fun c => if c = '.' then '-' else c

/-- The dot-normalization step: `if '.' in ticker and not
ticker.endswith('.'): ticker = ticker.replace('.', '-')`. -/
def normalizeDots (t : List Char) : List Char :=
  if '.' ∈ t ∧ ¬ t.getLast? = some '.' then replaceDots t else t

/-- The skip conditions applied to the stripped ticker before
normalization: nonempty, not the string `nan`, at most 6 characters, no
excluded suffix, and no `$` or `#` anywhere. -/
def preChecks (t : List Char) : Bool :=
  decide (t ≠ []) && decide (t ≠ ['n', 'a', 'n']) && decide (t.length ≤ 6) &&
    !(excludedSuffixes.any fun suf => decide (suf <:+ t)) &&
    !(decide ('$' ∈ t) || decide ('#' ∈ t))

/-- The final acceptance test on the normalized ticker:
`ticker.replace('-', '').replace('.', '').isalnum() and
ticker[0].isalpha()` (Python's `isalnum` is false on the empty string). -/
def validShape (t : List Char) : Bool :=
  (decide ((t.filter fun c => !(c == '-' || c == '.')) ≠ []) &&
    (t.filter fun c => !(c == '-' || c == '.')).all Char.isAlphanum) &&
  (match t with
   | [] => false
   | c :: _ => c.isAlpha)

/-- The per-ticker body of the `get_fortune5000_tickers` loop: strip, apply
the skip conditions, normalize dots, and accept the normalized symbol if it
passes the shape test. -/
def processTicker (raw : List Char) : Option (List Char) :=
  let t := pyStrip raw
  if preChecks t then
    let t2 := normalizeDots t
    if validShape t2 then some t2 else none
  else none

/-- Python's `sorted(list(set(...)))`: deduplicate, then sort ascending. -/
def dedupSort (l : List (List Char)) : List (List Char) :=
  List.insertionSort (· ≤ ·) l.dedup

/-- The symbol-validity filter of `get_fortune5000_tickers`: each raw ticker
through the loop body, then `sorted(list(set(valid_tickers)))`. -/
def filterTickers (all_tickers : List (List Char)) : List (List Char) :=
  dedupSort (all_tickers.filterMap processTicker)

/- ----------------------------------------------------------------
   Auxiliary definitions used by the statements
---------------------------------------------------------------- -/

/-- The text of an HTTP 429 rate-limit error. -/
def errText429 : PyErr := "429 Too Many Requests".toList

/-- A raw provider call that fails with that rate-limit error on every
attempt. -/
def always429 : ℕ → Except PyErr StockData :=
  fun _ => Except.error errText429

/-- Holds for the value of a present optional result (vacuously for an
absent one). -/
def optAll (p : α → Bool) : Option α → Bool
  | none => true
  | some a => p a

/-- All five technical-indicator fields are present. -/
def allIndicatorsSomeB (t : TechIndicators) : Bool :=
  t.rsi.isSome && t.macd.isSome && t.macd_signal.isSome &&
    t.macd_histogram.isSome && t.obv.isSome

/-- A provider info mapping with every key absent. -/
def infoEmpty : StockInfo :=
  { trailingPE := none, forwardPE := none, pegRatioF := none, totalDebt := none
    totalStockholderEquity := none, freeCashflow := none, dividendYield := none
    bookValue := none, priceToBook := none, returnOnEquity := none
    fiftyTwoWeekHigh := none }

/-- A debt-free company: total debt 0, equity 5, everything else absent. -/
def infoZeroDebt : StockInfo :=
  { infoEmpty with totalDebt := some 0, totalStockholderEquity := some 5 }

/-- A company with debt 10, equity 4, a 2% dividend yield and a trailing P/E
of 12; everything else absent. -/
def infoSample : StockInfo :=
  { infoEmpty with
    totalDebt := some 10
    totalStockholderEquity := some 4
    dividendYield := some (1/50)
    trailingPE := some 12 }

/-- The name of the most conservative preset. -/
def ultraName : String := "ultra_conservative"

/-- A preset name no entry of `PRESETS` carries. -/
def unknownPresetName : String := "turbo"

/-- A placeholder ticker symbol used in concrete witnesses. -/
def symA : String := "A"

/-- A 14-bar window of strictly falling closes. -/
def bars14 : List Bar :=
  (List.range 14).map fun (i : ℕ) => { close := 100 - (i : ℚ), volume := 1 }

instance : IsTotal AnalysisRecord (fun a b => a.percent_change ≤ b.percent_change) :=
  ⟨fun a b => le_total a.percent_change b.percent_change⟩

instance : IsTrans AnalysisRecord (fun a b => a.percent_change ≤ b.percent_change) :=
  ⟨fun _ _ _ h h' => le_trans h h'⟩

/- ----------------------------------------------------------------
   Helper lemmas
---------------------------------------------------------------- -/

/-- A list of length at least 2 ends in two elements. -/
lemma exists_last_two {α : Type _} (l : List α) (h : 2 ≤ l.length) :
    ∃ pre a b, l = pre ++ [a, b] := by
  rcases hrev : l.reverse with _ | ⟨x, t⟩
  · rw [List.reverse_eq_nil_iff] at hrev
    subst hrev; simp at h
  · rcases t with _ | ⟨y, t2⟩
    · have : l = [x] := by
        rw [← List.reverse_reverse l, hrev]; simp
      subst this; simp at h
    · refine ⟨t2.reverse, y, x, ?_⟩
      rw [← List.reverse_reverse l, hrev]
      simp

/-- A window shorter than 14 bars yields the all-null indicator group. -/
lemma calc_tech_null (hist : List Bar) (h : hist.length < 14) :
    calculate_technical_indicators hist = nullIndicators := by
  rw [calculate_technical_indicators, if_pos h]

/-- A window of at least 14 bars yields all five indicator fields present. -/
lemma calc_tech_some (hist : List Bar) (h : ¬ hist.length < 14) :
    allIndicatorsSomeB (calculate_technical_indicators hist) = true := by
  rw [calculate_technical_indicators, if_neg h]
  simp [allIndicatorsSomeB]

/-- Running `analyze_single_stock` with a provider that succeeds on the first
attempt, on a window ending in bars `pb`, `cb`: the retry wrapper returns the
data at once and the record is produced exactly when the percent change
passes the threshold test. -/
lemma analyzeSingleStock_pure (θ : ℚ) (sym : String) (failed : List String)
    (info : StockInfo) (pre : List Bar) (pb cb : Bar) :
    analyzeSingleStock θ sym
        (fun _ => Except.ok { hist := pre ++ [pb, cb], info := info }) failed =
      (failed,
       if (cb.close - pb.close) / pb.close * 100 ≤ θ then
         some { symbol := sym, current_price := cb.close, previous_close := pb.close
                percent_change := (cb.close - pb.close) / pb.close * 100
                distance_from_high :=
                  if info.fiftyTwoWeekHigh.getD 0 ≠ 0 then
                    (cb.close - info.fiftyTwoWeekHigh.getD 0)
                      / info.fiftyTwoWeekHigh.getD 0 * 100
                  else 0
                tech := calculate_technical_indicators (pre ++ [pb, cb])
                fundamentals := calculate_fundamental_ratios info }
       else none) := by
  have hlen : ¬ ((pre ++ [pb, cb]).length < 2) := by
    simp [List.length_append]
  simp only [analyzeSingleStock, rate_limited_request, maxRetriesConst, retryLoop,
    fetchInnerOutcome, hlen, if_false]
  simp [List.reverse_append]
  split <;> rfl

/-- The failure list is append-only: running `analyze_single_stock` from any
prior failure list appends exactly what a run from the empty list records. -/
lemma analyzeSingleStock_fst (θ : ℚ) (sym : String)
    (oracle : ℕ → Except PyErr StockData) (failed : List String) :
    (analyzeSingleStock θ sym oracle failed).1
      = failed ++ (if symbolFailed θ oracle sym then [sym] else []) := by
  unfold symbolFailed
  cases h : (rate_limited_request fun i => fetchInnerOutcome (oracle i)).1 with
  | error e => simp [analyzeSingleStock, h]
  | ok o =>
    cases o with
    | none => simp [analyzeSingleStock, h]
    | some o2 =>
      cases o2 with
      | none => simp [analyzeSingleStock, h]
      | some sd =>
        simp only [analyzeSingleStock, h]
        rcases hrev : (sd.hist.map Bar.close).reverse with _ | ⟨c, _ | ⟨p, rest⟩⟩ <;>
          simp [hrev]
        by_cases hθ : (c - p) / p * 100 ≤ θ <;> simp [hθ]

/-- The produced record does not depend on the incoming failure list. -/
lemma analyzeSingleStock_snd (θ : ℚ) (sym : String)
    (oracle : ℕ → Except PyErr StockData) (failed : List String) :
    (analyzeSingleStock θ sym oracle failed).2 = symbolRecord θ oracle sym := by
  unfold symbolRecord
  cases h : (rate_limited_request fun i => fetchInnerOutcome (oracle i)).1 with
  | error e => simp [analyzeSingleStock, h]
  | ok o =>
    cases o with
    | none => simp [analyzeSingleStock, h]
    | some o2 =>
      cases o2 with
      | none => simp [analyzeSingleStock, h]
      | some sd =>
        simp only [analyzeSingleStock, h]
        rcases hrev : (sd.hist.map Bar.close).reverse with _ | ⟨c, _ | ⟨p, rest⟩⟩ <;>
          simp [hrev]
        by_cases hθ : (c - p) / p * 100 ≤ θ <;> simp [hθ]

/- ----------------------------------------------------------------
   Theorems: C1-C10
---------------------------------------------------------------- -/

/-- C2 (code evidence): a provider call failing with a rate-limit error on
every attempt is attempted exactly `max_retries` (3) times and then yields
the explicit failed result `None` rather than an exception, so the symbol
contributes no record — but `analyze_single_stock` returns with the failure
list still empty: the exhausted symbol is never appended to
`failed_requests`, so it is indistinguishable from a symbol that merely did
not qualify. -/
theorem C2_rate_limit_exhaustion_unrecorded :
    (rate_limited_request (fun i => fetchInnerOutcome (always429 i))).2 = maxRetriesConst ∧
    (rate_limited_request (fun i => fetchInnerOutcome (always429 i))).1 = Except.ok none ∧
    analyzeSingleStock (-1) "AAPL" always429 [] = ([], none) :=
  ⟨rfl, rfl, rfl⟩

/-- C3 (code evidence): the `ultra_conservative` preset configures an
inter-batch delay range of (10, 20), but the orchestrator hands the uniform
sampler the hardcoded bounds (2, 5) before every non-final batch (here: 25
tickers at batch size 10 give 3 batches and exactly 2 sleeps), so the
configured range is never used. -/
theorem C3_inter_batch_bounds_hardcoded :
    (get_config ultraName).inter_batch_delay = (10, 20) ∧
    analyzeSleepBounds (totalBatches 25 (get_config ultraName).batch_size)
      = [(2, 5), (2, 5)] ∧
    ((2 : ℚ), (5 : ℚ)) ≠ ((10 : ℚ), (20 : ℚ)) :=
  ⟨rfl, by decide, by decide⟩

/-- C5: the displayed/persisted output sequence is sorted ascending by
percent change: every adjacent pair (a, b) satisfies
`a.percent_change ≤ b.percent_change`. -/
theorem C5_output_sorted_by_percent_change (l : List AnalysisRecord) :
    List.Chain' (fun a b => a.percent_change ≤ b.percent_change)
      (display_results_sort l) := by
  unfold display_results_sort
  exact List.chain'_iff_pairwise.mpr
    (List.sorted_insertionSort
      (fun (a b : AnalysisRecord) => a.percent_change ≤ b.percent_change) l)

/-- C7 (amended): for consecutive acquisitions that do not overlap — the
second acquisition's read sees the first's written timestamp — the interval
between call starts is at least the drawn delay, hence at least the
configured minimum bound; the shared timestamp again equals the new call
start, so the bound chains across a sequential run. -/
theorem C7_sequential_throttle_spacing (st : ThrottleState) (d dmin : ℚ)
    (h : dmin ≤ d) :
    dmin ≤ (sequentialAcquire st d).2 - st.last ∧
    (sequentialAcquire st d).1.last = (sequentialAcquire st d).2 := by
  unfold sequentialAcquire readShared proceedWrite
  constructor
  · by_cases hc : st.clock - st.last < d
    · simp only [hc, if_true, Option.getD_some]
      linarith
    · simp only [hc, if_false, Option.getD_some]
      linarith [not_lt.mp hc]
  · by_cases hc : st.clock - st.last < d <;> simp [hc]

/-- Witness for C7 (amended) at a concrete state: previous call start 0,
clock 0, drawn delay 1, configured minimum bound 1/2 (the `balanced`
preset). -/
theorem C7_sequential_throttle_spacing_witness :
    ((1 : ℚ)/2 ≤ (sequentialAcquire { clock := 0, last := 0 } 1).2 - (0 : ℚ) ∧
     (sequentialAcquire { clock := 0, last := 0 } 1).1.last
       = (sequentialAcquire { clock := 0, last := 0 } 1).2) :=
  C7_sequential_throttle_spacing { clock := 0, last := 0 } 1 (1/2) (by norm_num)

/-- C7 counterexample: with no synchronization around the read-modify-write,
two workers can interleave so that both read the stale shared timestamp
(worker B still sees 0 after A has proceeded) and both proceed at the same
instant: call starts 100 and 100, an interval of 0, strictly below the
configured minimum delay bound 1/2 of the `balanced` preset from which both
drew their delay 1. -/
theorem C7_stale_read_race_counterexample :
    staleRaceTrace.1.1 = 100 ∧ staleRaceTrace.1.2 = 100 ∧
    staleRaceTrace.2 = some 0 ∧
    staleRaceTrace.1.2 - staleRaceTrace.1.1 = 0 ∧
    ¬ (balancedPreset.delay_range.1 ≤ staleRaceTrace.1.2 - staleRaceTrace.1.1) := by
  unfold staleRaceTrace readShared proceedWrite balancedPreset
  norm_num

/-- C1: over a window with at least 2 bars (ending in `pb`, `cb`, with a
nonzero previous close) fetched without incident, an AnalysisRecord is
produced if and only if `(cur - prev) / prev * 100 ≤ drop_threshold`,
boundary equality included, and the produced record carries exactly that
percent change. -/
theorem C1_threshold_iff (pre : List Bar) (pb cb : Bar) (info : StockInfo)
    (θ : ℚ) (sym : String) (failed : List String) (hpb : pb.close ≠ 0) :
    ((analyzeSingleStock θ sym
        (fun _ => Except.ok { hist := pre ++ [pb, cb], info := info }) failed).2.isSome
      ↔ (cb.close - pb.close) / pb.close * 100 ≤ θ) ∧
    ∀ r, (analyzeSingleStock θ sym
        (fun _ => Except.ok { hist := pre ++ [pb, cb], info := info }) failed).2 = some r →
      r.percent_change = (cb.close - pb.close) / pb.close * 100 := by
  rw [analyzeSingleStock_pure]
  constructor
  · by_cases hθ : (cb.close - pb.close) / pb.close * 100 ≤ θ <;> simp [hθ]
  · intro r hr
    by_cases hθ : (cb.close - pb.close) / pb.close * 100 ≤ θ
    · simp only [hθ, if_true] at hr
      simp only [Option.some.injEq] at hr
      rw [← hr]
    · simp [hθ] at hr

/-- Witness for C1 at the spec's two end-to-end examples: closes 100 then 88
with threshold −1 satisfy the threshold test (−12 ≤ −1), so a record is
produced; closes 100 then 99.5 do not (−0.5 > −1), so none is. -/
theorem C1_threshold_iff_witness :
    ((analyzeSingleStock (-1) "XYZ"
        (fun _ => Except.ok
          { hist := [] ++ [{ close := 100, volume := 1 }, { close := 88, volume := 1 }]
            info := infoEmpty }) []).2.isSome
      ↔ ((88 : ℚ) - 100) / 100 * 100 ≤ -1) ∧
    (((88 : ℚ) - 100) / 100 * 100 ≤ -1) ∧
    ((analyzeSingleStock (-1) "XYZ"
        (fun _ => Except.ok
          { hist := [] ++ [{ close := 100, volume := 1 }, { close := 199/2, volume := 1 }]
            info := infoEmpty }) []).2.isSome
      ↔ ((199/2 : ℚ) - 100) / 100 * 100 ≤ -1) ∧
    ¬ (((199/2 : ℚ) - 100) / 100 * 100 ≤ -1) :=
  ⟨(C1_threshold_iff [] { close := 100, volume := 1 } { close := 88, volume := 1 }
      infoEmpty (-1) "XYZ" [] (by norm_num)).1,
   by norm_num,
   (C1_threshold_iff [] { close := 100, volume := 1 } { close := 199/2, volume := 1 }
      infoEmpty (-1) "XYZ" [] (by norm_num)).1,
   by norm_num⟩

/-- C4: a window with 0 or 1 bars never produces a record; a record produced
from a window of fewer than 14 bars has all five technical-indicator fields
null; a record produced from a window of 14 or more bars has all five
fields non-null. -/
theorem C4_indicator_nullability (bars : List Bar) (info : StockInfo) (θ : ℚ)
    (sym : String) (failed : List String) :
    (bars.length < 2 →
      (analyzeSingleStock θ sym
        (fun _ => Except.ok { hist := bars, info := info }) failed).2 = none) ∧
    (bars.length < 14 →
      optAll (fun r => decide (r.tech = nullIndicators))
        (analyzeSingleStock θ sym
          (fun _ => Except.ok { hist := bars, info := info }) failed).2 = true) ∧
    (14 ≤ bars.length →
      optAll (fun r => allIndicatorsSomeB r.tech)
        (analyzeSingleStock θ sym
          (fun _ => Except.ok { hist := bars, info := info }) failed).2 = true) := by
  refine ⟨?_, ?_, ?_⟩
  · intro h2
    simp [analyzeSingleStock, rate_limited_request, maxRetriesConst, retryLoop,
      fetchInnerOutcome, h2]
  · intro h14
    by_cases h2 : bars.length < 2
    · simp [analyzeSingleStock, rate_limited_request, maxRetriesConst, retryLoop,
        fetchInnerOutcome, h2, optAll]
    · obtain ⟨pre, pb, cb, rfl⟩ := exists_last_two bars (not_lt.mp h2)
      rw [analyzeSingleStock_pure]
      by_cases hθ : (cb.close - pb.close) / pb.close * 100 ≤ θ
      · simp [hθ, optAll, calc_tech_null _ h14]
      · simp [hθ, optAll]
  · intro h14
    obtain ⟨pre, pb, cb, rfl⟩ := exists_last_two bars (by omega)
    rw [analyzeSingleStock_pure]
    by_cases hθ : (cb.close - pb.close) / pb.close * 100 ≤ θ
    · simp [hθ, optAll, calc_tech_some _ (not_lt.mpr h14)]
    · simp [hθ, optAll]

/-- Witness for C4 at concrete windows: 1 bar yields no record; 2 bars of
falling closes (threshold 0) yield a record with all indicators null; the
14-bar falling window yields a record with all indicators present. -/
theorem C4_indicator_nullability_witness :
    ((analyzeSingleStock 0 symA
        (fun _ => Except.ok
          { hist := [{ close := 5, volume := 1 }], info := infoEmpty }) []).2 = none) ∧
    (optAll (fun r => decide (r.tech = nullIndicators))
      (analyzeSingleStock 0 symA
        (fun _ => Except.ok
          { hist := [{ close := 100, volume := 1 }, { close := 88, volume := 1 }]
            info := infoEmpty }) []).2 = true) ∧
    (optAll (fun r => allIndicatorsSomeB r.tech)
      (analyzeSingleStock 0 symA
        (fun _ => Except.ok { hist := bars14, info := infoEmpty }) []).2 = true) :=
  ⟨(C4_indicator_nullability [{ close := 5, volume := 1 }] infoEmpty 0 symA []).1
      (by simp),
   (C4_indicator_nullability
      [{ close := 100, volume := 1 }, { close := 88, volume := 1 }]
      infoEmpty 0 symA []).2.1 (by simp),
   (C4_indicator_nullability bars14 infoEmpty 0 symA []).2.2
      (by rw [bars14, List.length_map, List.length_range])⟩

/-- C6: running a batch threads the shared failure list append-only — the
final failure list is the incoming one extended by exactly the symbols whose
processing failed — and the returned records are exactly those each
non-failing symbol would produce in isolation; the batch function is total,
so no symbol-level exception escapes it. -/
theorem C6_batch_containment (θ : ℚ)
    (oracles : String → ℕ → Except PyErr StockData)
    (failed : List String) (batch : List String) :
    (process_batch θ oracles failed batch).1
      = failed ++ batch.filter (fun s => symbolFailed θ (oracles s) s) ∧
    (process_batch θ oracles failed batch).2
      = batch.filterMap (fun s => symbolRecord θ (oracles s) s) := by
  induction batch generalizing failed with
  | nil => simp [process_batch]
  | cons sym rest ih =>
    obtain ⟨ih1, ih2⟩ := ih (analyzeSingleStock θ sym (oracles sym) failed).1
    have hfst := analyzeSingleStock_fst θ sym (oracles sym) failed
    have hsnd := analyzeSingleStock_snd θ sym (oracles sym) failed
    simp only [process_batch]
    constructor
    · cases hsr : (analyzeSingleStock θ sym (oracles sym) failed).2 <;>
        (simp only [hsr]
         rw [ih1, hfst, List.filter_cons]
         cases hb : symbolFailed θ (oracles sym) sym <;>
           simp [hb, List.append_assoc])
    · cases hsr : (analyzeSingleStock θ sym (oracles sym) failed).2 with
      | none =>
        simp only [hsr]
        rw [ih2, List.filterMap_cons]
        have hz : symbolRecord θ (oracles sym) sym = none := by rw [← hsnd, hsr]
        simp [hz]
      | some r =>
        simp only [hsr]
        rw [ih2, List.filterMap_cons]
        have hz : symbolRecord θ (oracles sym) sym = some r := by rw [← hsnd, hsr]
        simp [hz]

/-- C8 counterexample: for a company with total debt 0 and equity 5 (equity
known and nonzero), the code returns a null debt-to-equity — `round(x, 2) if
x else None` treats the zero quotient as falsy — whereas the claim requires
the rounded quotient `some 0`. -/
theorem C8_debt_to_equity_zero_counterexample :
    infoZeroDebt.totalStockholderEquity = some 5 ∧ (5 : ℚ) ≠ 0 ∧
    (calculate_fundamental_ratios infoZeroDebt).debt_to_equity = none ∧
    (none : Option ℚ)
      ≠ some (pyRound 2 (infoZeroDebt.totalDebt.getD 0 / (5 : ℚ))) := by
  refine ⟨rfl, by norm_num, ?_, by simp⟩
  simp [calculate_fundamental_ratios, infoZeroDebt, infoEmpty, roundIfTruthy]

/-- C8 (amended): debt-to-equity is the 2-decimal rounding of total debt over
total equity whenever equity is known, nonzero, and the quotient itself is
nonzero; it is null when equity is zero/unknown or the quotient is zero.
Every derived field whose underlying input is absent is null.  Yield and ROE
are scaled by 100 and rounded when present and nonzero (a present zero yields
null).  Free cash flow passes through unrounded; the remaining numeric fields
are rounded to 2 decimals when present and nonzero. -/
theorem C8_fundamental_ratios_amended (info : StockInfo) :
    ((info.totalStockholderEquity.getD 0 = 0 →
        (calculate_fundamental_ratios info).debt_to_equity = none) ∧
     (info.totalStockholderEquity.getD 0 ≠ 0 →
        info.totalDebt.getD 0 / info.totalStockholderEquity.getD 0 ≠ 0 →
        (calculate_fundamental_ratios info).debt_to_equity
          = some (pyRound 2
              (info.totalDebt.getD 0 / info.totalStockholderEquity.getD 0))) ∧
     (info.totalStockholderEquity.getD 0 ≠ 0 →
        info.totalDebt.getD 0 / info.totalStockholderEquity.getD 0 = 0 →
        (calculate_fundamental_ratios info).debt_to_equity = none)) ∧
    ((info.trailingPE = none → (calculate_fundamental_ratios info).pe_ratio_v = none) ∧
     (info.forwardPE = none → (calculate_fundamental_ratios info).forward_pe = none) ∧
     (info.pegRatioF = none → (calculate_fundamental_ratios info).peg_ratio_v = none) ∧
     (info.dividendYield = none →
        (calculate_fundamental_ratios info).dividend_yield = none) ∧
     (info.bookValue = none → (calculate_fundamental_ratios info).book_value = none) ∧
     (info.priceToBook = none →
        (calculate_fundamental_ratios info).price_to_book = none) ∧
     (info.returnOnEquity = none →
        (calculate_fundamental_ratios info).return_on_equity = none)) ∧
    ((∀ v : ℚ, info.dividendYield = some v → v ≠ 0 →
        (calculate_fundamental_ratios info).dividend_yield
          = some (pyRound 2 (v * 100))) ∧
     (info.dividendYield = some 0 →
        (calculate_fundamental_ratios info).dividend_yield = none) ∧
     (∀ v : ℚ, info.returnOnEquity = some v → v ≠ 0 →
        (calculate_fundamental_ratios info).return_on_equity
          = some (pyRound 2 (v * 100))) ∧
     (info.returnOnEquity = some 0 →
        (calculate_fundamental_ratios info).return_on_equity = none)) ∧
    (calculate_fundamental_ratios info).free_cash_flow = info.freeCashflow ∧
    ((∀ v : ℚ, info.trailingPE = some v → v ≠ 0 →
        (calculate_fundamental_ratios info).pe_ratio_v = some (pyRound 2 v)) ∧
     (∀ v : ℚ, info.forwardPE = some v → v ≠ 0 →
        (calculate_fundamental_ratios info).forward_pe = some (pyRound 2 v)) ∧
     (∀ v : ℚ, info.pegRatioF = some v → v ≠ 0 →
        (calculate_fundamental_ratios info).peg_ratio_v = some (pyRound 2 v)) ∧
     (∀ v : ℚ, info.bookValue = some v → v ≠ 0 →
        (calculate_fundamental_ratios info).book_value = some (pyRound 2 v)) ∧
     (∀ v : ℚ, info.priceToBook = some v → v ≠ 0 →
        (calculate_fundamental_ratios info).price_to_book = some (pyRound 2 v))) := by
  refine ⟨⟨?_, ?_, ?_⟩, ⟨?_, ?_, ?_, ?_, ?_, ?_, ?_⟩, ⟨?_, ?_, ?_, ?_⟩, ?_,
    ⟨?_, ?_, ?_, ?_, ?_⟩⟩
  · intro h
    simp [calculate_fundamental_ratios, h, roundIfTruthy]
  · intro h hq
    simp [calculate_fundamental_ratios, h, hq, roundIfTruthy]
  · intro h hq
    simp [calculate_fundamental_ratios, h, hq, roundIfTruthy]
  · intro h
    simp [calculate_fundamental_ratios, h, roundIfTruthy]
  · intro h
    simp [calculate_fundamental_ratios, h, roundIfTruthy]
  · intro h
    simp [calculate_fundamental_ratios, h, roundIfTruthy]
  · intro h
    simp [calculate_fundamental_ratios, h, roundIfTruthy]
  · intro h
    simp [calculate_fundamental_ratios, h, roundIfTruthy]
  · intro h
    simp [calculate_fundamental_ratios, h, roundIfTruthy]
  · intro h
    simp [calculate_fundamental_ratios, h, roundIfTruthy]
  · intro v hv hne
    have h100 : v * 100 ≠ 0 := mul_ne_zero hne (by norm_num)
    simp [calculate_fundamental_ratios, hv, hne, h100, roundIfTruthy]
  · intro h
    simp [calculate_fundamental_ratios, h, roundIfTruthy]
  · intro v hv hne
    have h100 : v * 100 ≠ 0 := mul_ne_zero hne (by norm_num)
    simp [calculate_fundamental_ratios, hv, hne, h100, roundIfTruthy]
  · intro h
    simp [calculate_fundamental_ratios, h, roundIfTruthy]
  · simp [calculate_fundamental_ratios]
  · intro v hv hne
    simp [calculate_fundamental_ratios, hv, hne, roundIfTruthy]
  · intro v hv hne
    simp [calculate_fundamental_ratios, hv, hne, roundIfTruthy]
  · intro v hv hne
    simp [calculate_fundamental_ratios, hv, hne, roundIfTruthy]
  · intro v hv hne
    simp [calculate_fundamental_ratios, hv, hne, roundIfTruthy]
  · intro v hv hne
    simp [calculate_fundamental_ratios, hv, hne, roundIfTruthy]

/-- Witness for C8 (amended) at a concrete info mapping: debt 10 over equity
4 is rounded; a 2% dividend yield is scaled to percent and rounded; an absent
ROE stays null; the absent free cash flow passes through as null. -/
theorem C8_fundamental_ratios_amended_witness :
    (calculate_fundamental_ratios infoSample).debt_to_equity
      = some (pyRound 2
          (infoSample.totalDebt.getD 0 / infoSample.totalStockholderEquity.getD 0)) ∧
    (calculate_fundamental_ratios infoSample).dividend_yield
      = some (pyRound 2 ((1/50 : ℚ) * 100)) ∧
    (calculate_fundamental_ratios infoSample).return_on_equity = none ∧
    (calculate_fundamental_ratios infoSample).free_cash_flow = none := by
  obtain ⟨⟨_, d2, _⟩, ⟨_, _, _, _, _, _, a7⟩, ⟨s1, _, _, _⟩, hfcf, _⟩ :=
    C8_fundamental_ratios_amended infoSample
  refine ⟨d2 ?_ ?_, s1 (1/50) rfl (by norm_num), a7 rfl, hfcf.trans rfl⟩
  · norm_num [infoSample, infoEmpty]
  · norm_num [infoSample, infoEmpty]

/- ----------------------------------------------------------------
   C9: the ticker filter is idempotent, deduplicated and sorted
---------------------------------------------------------------- -/

/-- A whitespace character is neither alphanumeric nor `-` nor `.`. -/
lemma space_not_class (c : Char) (h : isPySpace c = true) :
    ¬ (c.isAlphanum = true ∨ c = '-' ∨ c = '.') := by
  simp only [isPySpace, Bool.or_eq_true, beq_iff_eq] at h
  rcases h with ((((h | h) | h) | h) | h) | h <;> subst h <;> decide

/-- Dropping while a predicate holds is the identity when no element satisfies the
predicate. -/
lemma dropWhile_of_all_false (p : Char → Bool) (l : List Char)
    (h : ∀ c ∈ l, p c = false) : l.dropWhile p = l := by
  cases l with
  | nil => rfl
  | cons a t =>
    rw [List.dropWhile_cons, h a (List.mem_cons_self a t)]
    simp

/-- Stripping is the identity on a whitespace-free string. -/
lemma pyStrip_of_no_space (t : List Char) (h : ∀ c ∈ t, isPySpace c = false) :
    pyStrip t = t := by
  unfold pyStrip
  rw [dropWhile_of_all_false _ _ h,
    dropWhile_of_all_false _ _ (fun c hc => h c (List.mem_reverse.mp hc)),
    List.reverse_reverse]

/-- Dot replacement leaves no dot behind. -/
lemma dot_not_mem_replaceDots (s : List Char) : '.' ∉ replaceDots s := by
  intro h
  rw [replaceDots, List.mem_map] at h
  obtain ⟨c, _, hc⟩ := h
  split at hc
  · exact absurd hc (by decide)
  · next hne => exact hne hc

/-- Dot replacement introduces a hyphen wherever the input had a dot. -/
lemma dash_mem_replaceDots (s : List Char) (h : '.' ∈ s) :
    '-' ∈ replaceDots s := by
  rw [replaceDots, List.mem_map]
  exact ⟨'.', h, by simp⟩

/-- Dot replacement preserves length. -/
lemma length_replaceDots (s : List Char) : (replaceDots s).length = s.length :=
  List.length_map _ _

/-- Inversion of an accepted ticker: the stripped input passed the skip
conditions, the output is its dot-normalization, and the output passed the
shape test. -/
lemma processTicker_inv (raw t : List Char) (h : processTicker raw = some t) :
    preChecks (pyStrip raw) = true ∧ t = normalizeDots (pyStrip raw) ∧
      validShape t = true := by
  simp only [processTicker] at h
  split at h
  · next h1 =>
    split at h
    · next h2 =>
      injection h with h3
      refine ⟨h1, h3.symm, ?_⟩
      rw [h3] at h2
      exact h2
    · exact absurd h (by simp)
  · exact absurd h (by simp)

/-- Every character of an accepted ticker is alphanumeric, `-` or `.`. -/
lemma validShape_charClass (t : List Char) (h : validShape t = true) :
    ∀ c ∈ t, c.isAlphanum = true ∨ c = '-' ∨ c = '.' := by
  intro c hc
  by_cases hd : c = '-' ∨ c = '.'
  · right; exact hd
  · left
    push_neg at hd
    simp only [validShape, Bool.and_eq_true, decide_eq_true_eq] at h
    obtain ⟨⟨_, hall⟩, _⟩ := h
    have hcmem : c ∈ t.filter fun c => !(c == '-' || c == '.') := by
      rw [List.mem_filter]
      refine ⟨hc, ?_⟩
      simp [hd.1, hd.2]
    exact List.all_eq_true.mp hall c hcmem

/-- An accepted ticker is nonempty. -/
lemma validShape_ne_nil (t : List Char) (h : validShape t = true) : t ≠ [] := by
  intro hnil
  subst hnil
  simp [validShape] at h

/-- Every excluded suffix is `$`, `#`, or a dot followed by a non-dot
letter. -/
lemma excludedSuffixes_shape (suf : List Char) (h : suf ∈ excludedSuffixes) :
    suf = ['$'] ∨ suf = ['#'] ∨ ∃ L, suf = ['.', L] ∧ L ≠ '.' := by
  fin_cases h <;>
    first
      | exact Or.inl rfl
      | exact Or.inr (Or.inl rfl)
      | exact Or.inr (Or.inr ⟨_, rfl, by decide⟩)

/-- The loop body is a fixpoint on its own output: re-filtering an accepted
ticker accepts it unchanged. -/
lemma processTicker_fixpoint (raw t : List Char)
    (h : processTicker raw = some t) : processTicker t = some t := by
  obtain ⟨hpre, hnorm, hshape⟩ := processTicker_inv raw t h
  set s := pyStrip raw with hs
  simp only [preChecks, Bool.and_eq_true, Bool.not_eq_true',
    decide_eq_true_eq] at hpre
  obtain ⟨⟨⟨⟨hsne, hsnan⟩, hslen⟩, hssuf⟩, hsdh⟩ := hpre
  have hclass := validShape_charClass t hshape
  have hnospace : ∀ c ∈ t, isPySpace c = false := by
    intro c hc
    cases hx : isPySpace c with
    | false => rfl
    | true => exact absurd (hclass c hc) (space_not_class c hx)
  have hstrip : pyStrip t = t := pyStrip_of_no_space t hnospace
  have hdots : '.' ∈ t → t.getLast? = some '.' := by
    intro hdot
    by_cases hcond : ('.' ∈ s ∧ ¬ s.getLast? = some '.')
    · rw [hnorm, normalizeDots, if_pos hcond] at hdot
      exact absurd hdot (dot_not_mem_replaceDots s)
    · rw [hnorm, normalizeDots, if_neg hcond] at hdot ⊢
      push_neg at hcond
      exact hcond hdot
  have hne : t ≠ [] := validShape_ne_nil t hshape
  have hnodollar : '$' ∉ t := by
    intro hd
    rcases hclass '$' hd with h1 | h1 | h1 <;> exact absurd h1 (by decide)
  have hnohash : '#' ∉ t := by
    intro hd
    rcases hclass '#' hd with h1 | h1 | h1 <;> exact absurd h1 (by decide)
  have hnan : t ≠ ['n', 'a', 'n'] := by
    by_cases hcond : ('.' ∈ s ∧ ¬ s.getLast? = some '.')
    · rw [hnorm, normalizeDots, if_pos hcond]
      intro heq
      have hd := dash_mem_replaceDots s hcond.1
      rw [heq] at hd
      exact absurd hd (by decide)
    · rw [hnorm, normalizeDots, if_neg hcond]
      exact hsnan
  have hlen : t.length ≤ 6 := by
    by_cases hcond : ('.' ∈ s ∧ ¬ s.getLast? = some '.')
    · rw [hnorm, normalizeDots, if_pos hcond, length_replaceDots]
      exact hslen
    · rw [hnorm, normalizeDots, if_neg hcond]
      exact hslen
  have hsuffix : (excludedSuffixes.any fun suf => decide (suf <:+ t)) = false := by
    rw [List.any_eq_false]
    intro suf hsuf
    simp only [decide_eq_true_eq]
    rcases excludedSuffixes_shape suf hsuf with h1 | h1 | ⟨L, hL1, hL2⟩
    · subst h1
      rintro ⟨pre, hp2⟩
      exact hnodollar (by rw [← hp2]; simp)
    · subst h1
      rintro ⟨pre, hp2⟩
      exact hnohash (by rw [← hp2]; simp)
    · subst hL1
      rintro ⟨pre, hp2⟩
      have hdmem : '.' ∈ t := by rw [← hp2]; simp
      have hlastL : t.getLast? = some L := by
        have h2 : pre ++ ['.', L] = (pre ++ ['.']) ++ [L] := by simp
        rw [← hp2, h2, List.getLast?_concat]
      have hlastDot := hdots hdmem
      rw [hlastL] at hlastDot
      exact hL2 (Option.some.inj hlastDot)
  have hpt : preChecks t = true := by
    simp only [preChecks, Bool.and_eq_true, Bool.not_eq_true',
      decide_eq_true_eq]
    refine ⟨⟨⟨⟨hne, hnan⟩, hlen⟩, hsuffix⟩, ?_⟩
    simp [hnodollar, hnohash]
  have hnt : normalizeDots t = t := by
    rw [normalizeDots]
    by_cases hd : '.' ∈ t
    · rw [if_neg (fun hcon => hcon.2 (hdots hd))]
    · rw [if_neg (fun hcon => hd hcon.1)]
  simp only [processTicker]
  rw [hstrip, if_pos hpt, hnt, if_pos hshape]

/-- Filtering-and-mapping is the identity on a list of fixpoints. -/
lemma filterMap_id_of_fix (M : List (List Char))
    (h : ∀ t ∈ M, processTicker t = some t) :
    M.filterMap processTicker = M := by
  induction M with
  | nil => rfl
  | cons a m ih =>
    simp [List.filterMap_cons, h a (List.mem_cons_self a m),
      ih fun t ht => h t (List.mem_cons_of_mem a ht)]

/-- The `dedupSort` output has no duplicates. -/
lemma dedupSort_nodup (l : List (List Char)) : (dedupSort l).Nodup :=
  ((List.perm_insertionSort _ _).nodup_iff).mpr (List.nodup_dedup l)

/-- The `dedupSort` output is sorted ascending. -/
lemma dedupSort_sorted (l : List (List Char)) :
    List.Sorted (· ≤ ·) (dedupSort l) :=
  List.sorted_insertionSort _ _

/-- The `dedupSort` function is the identity on a deduplicated sorted list. -/
lemma dedupSort_fix (l : List (List Char)) (hn : l.Nodup)
    (hs : List.Sorted (· ≤ ·) l) : dedupSort l = l := by
  unfold dedupSort
  rw [List.dedup_eq_self.mpr hn]
  exact hs.insertionSort_eq

/-- Membership in `dedupSort` output coincides with input membership. -/
lemma mem_dedupSort {t : List Char} {l : List (List Char)} :
    t ∈ dedupSort l ↔ t ∈ l := by
  unfold dedupSort
  rw [List.mem_insertionSort, List.mem_dedup]

/-- C9: the symbol-validity filter is idempotent — filtering its own output
returns it unchanged — and its output is deduplicated and sorted in
ascending order. -/
theorem C9_ticker_filter_idempotent_sorted (xs : List (List Char)) :
    filterTickers (filterTickers xs) = filterTickers xs ∧
    (filterTickers xs).Nodup ∧
    List.Sorted (· ≤ ·) (filterTickers xs) := by
  have hfix : ∀ t ∈ filterTickers xs, processTicker t = some t := by
    intro t ht
    rw [filterTickers, mem_dedupSort] at ht
    obtain ⟨s, _, hs⟩ := List.mem_filterMap.mp ht
    exact processTicker_fixpoint s t hs
  have hnodup : (filterTickers xs).Nodup := by
    rw [filterTickers]
    exact dedupSort_nodup _
  have hsorted : List.Sorted (· ≤ ·) (filterTickers xs) := by
    rw [filterTickers]
    exact dedupSort_sorted _
  refine ⟨?_, hnodup, hsorted⟩
  show dedupSort ((filterTickers xs).filterMap processTicker) = filterTickers xs
  rw [filterMap_id_of_fix _ hfix]
  exact dedupSort_fix _ hnodup hsorted

/- ----------------------------------------------------------------
   Theorems: C10
---------------------------------------------------------------- -/

/-- C10: for every preset name other than `aggressive`, `balanced`,
`conservative` and `ultra_conservative`, `get_config` neither fails nor
signals an error: it silently returns the `balanced` preset configuration. -/
theorem C10_get_config_unknown_preset_falls_back (p : String)
    (h1 : p ≠ "aggressive") (h2 : p ≠ "balanced")
    (h3 : p ≠ "conservative") (h4 : p ≠ "ultra_conservative") :
    get_config p = balancedPreset := by
  have b1 : (p == "aggressive") = false := beq_eq_false_iff_ne.mpr h1
  have b2 : (p == "balanced") = false := beq_eq_false_iff_ne.mpr h2
  have b3 : (p == "conservative") = false := beq_eq_false_iff_ne.mpr h3
  have b4 : (p == "ultra_conservative") = false := beq_eq_false_iff_ne.mpr h4
  simp [get_config, PRESETS, List.lookup, b1, b2, b3, b4]

/-- Witness for C10 at the concrete unknown preset name `"turbo"`. -/
theorem C10_get_config_unknown_preset_falls_back_witness :
    get_config unknownPresetName = balancedPreset :=
  C10_get_config_unknown_preset_falls_back unknownPresetName
    (by decide) (by decide) (by decide) (by decide)
